import Mathlib

/-!
# A shallow embedding of the PARD-gem5 TagBridge (src/mem/tag_bridge.cc)

The bridge connects an upstream (slave-side) agent to a downstream
(master-side) agent through two bounded FIFO queues: the master port's
request queue (`transmitList` of `BridgeMasterPort`) and the slave
port's response queue (`transmitList` of `BridgeSlavePort`).  The slave
port additionally tracks `outstandingResponses` (reserved response
slots) and `retryReq` (backpressure flag), and the bridge attaches a
write-once DSid tag to every transaction that crosses it.

The embedding models the two ports' combined mutable state as one
`BridgeState` record, packets as `Packet` records, and each C++ member
function as a pure Lean function returning `Except Fatal _`, where
`Fatal` enumerates the `assert`/`fatal` conditions of the source.
Ticks are natural numbers; the event scheduler is abstracted away
(send attempts are driven explicitly, with the adjacent agent's
accept/reject decision passed as a boolean).
-/

namespace TagBridge

/-- The fatal conditions of the source: failed `assert`s and `fatal` calls. -/
inductive Fatal where
  /-- `assert(!retryReq)` in `recvTimingReq` (line 156). -/
  | retryAssert
  /-- `assert(!pkt->hasDSid())` at a tagging boundary (lines 185, 364, 375). -/
  | alreadyTagged
  /-- `assert(transmitList.size() != reqQueueLimit)` in `schedTimingReq` (line 233). -/
  | queueOverflow
  /-- `assert(req_state != NULL)` in `schedTimingResp` (line 247). -/
  | noSidecar
  /-- `assert(outstandingResponses != 0)` in the slave `trySendTiming` (line 323). -/
  | respUnderflow
  /-- `assert(!transmitList.empty())` at a send attempt (lines 269, 307). -/
  | emptyQueue
deriving DecidableEq, Repr

/-- The fields of a gem5 packet that `tag_bridge.cc` reads or writes:
address, `needsResponse()`, `memInhibitAsserted()`, source and
destination identity, the write-once DSid tag, the sender-state stack
(the bridge pushes/pops `RequestState` entries carrying `origSrc`),
and the two timing-hint fields zeroed on passthrough. -/
structure Packet where
  addr : Nat
  needsResponse : Bool
  memInhibit : Bool
  src : Nat
  dest : Nat
  dsid : Option Nat
  senderState : List Nat
  firstWordDelay : Nat
  lastWordDelay : Nat
  isResponse : Bool
deriving DecidableEq, Repr

/-- `DeferredPacket`: a queued packet plus its earliest departure tick. -/
structure DeferredPacket where
  pkt : Packet
  tick : Nat
deriving DecidableEq, Repr

/-- The combined mutable state of the two ports.
`reqQueue`/`reqQueueLimit` belong to `BridgeMasterPort`
(`transmitList`/`reqQueueLimit`); `respQueue`, `respQueueLimit`,
`outstandingResponses` and `retryReq` belong to `BridgeSlavePort`. -/
structure BridgeState where
  reqQueue : List DeferredPacket
  reqQueueLimit : Nat
  respQueue : List DeferredPacket
  respQueueLimit : Nat
  outstandingResponses : Nat
  retryReq : Bool
deriving DecidableEq, Repr

/-- `BridgeSlavePort::respQueueFull`: `outstandingResponses == respQueueLimit`. -/
def respQueueFull (s : BridgeState) : Bool :=
  s.outstandingResponses == s.respQueueLimit

/-- `BridgeMasterPort::reqQueueFull`: `transmitList.size() == reqQueueLimit`. -/
def reqQueueFull (s : BridgeState) : Bool :=
  s.reqQueue.length == s.reqQueueLimit

/-- The `expects_response` test of `recvTimingReq` (lines 167-168):
`pkt->needsResponse() && !pkt->memInhibitAsserted()`. -/
def expectsResponse (pkt : Packet) : Bool :=
  pkt.needsResponse && !pkt.memInhibit

/-- `pkt->makeResponse()` as far as the bridge observes it. -/
def makeResponse (pkt : Packet) : Packet :=
  { pkt with isResponse := true }

/-- `pkt->firstWordDelay = pkt->lastWordDelay = 0`, the timing-hint
zeroing on passthrough (lines 142, 190). -/
def zeroDelays (pkt : Packet) : Packet :=
  { pkt with firstWordDelay := 0, lastWordDelay := 0 }

/-- `BridgeMasterPort::schedTimingReq` (lines 213-236): if the packet
expects a response, push a `RequestState` sidecar recording
`pkt->getSrc()`; assert the request queue is not at its limit; append
the deferred packet at the back. -/
def schedTimingReq (s : BridgeState) (pkt : Packet) (when : Nat) :
    Except Fatal BridgeState :=
  let pkt1 :=
    if !pkt.memInhibit && pkt.needsResponse then
      { pkt with senderState := pkt.src :: pkt.senderState }
    else pkt
  if s.reqQueue.length == s.reqQueueLimit then .error .queueOverflow
  else .ok { s with reqQueue := s.reqQueue ++ [⟨pkt1, when⟩] }

/-- `BridgeSlavePort::schedTimingResp` (lines 239-264): pop the
`RequestState` sidecar (fatal if absent), restore the destination to
the recorded original source, append at the back of the response
queue. -/
def schedTimingResp (s : BridgeState) (pkt : Packet) (when : Nat) :
    Except Fatal (BridgeState × Packet) :=
  match pkt.senderState with
  | [] => .error .noSidecar
  | origSrc :: rest =>
    let pkt1 := { pkt with senderState := rest, dest := origSrc }
    .ok ({ s with respQueue := s.respQueue ++ [⟨pkt1, when⟩] }, pkt1)

/-- `BridgeSlavePort::recvTimingReq` (lines 149-201).  Returns the
admission verdict, the updated state and the (possibly mutated)
packet as left with the caller.  Faithful to the source order: the
`retryReq` precondition assert, the request-queue-full refusal, the
response-slot reservation or refusal, then — still inside the
queue-not-full branch — the DSid tagging (which therefore also runs
on the response-slot refusal path), and finally the forwarding guarded
by `!retryReq`. -/
def recvTimingReq (dsid : Nat) (s : BridgeState) (pkt : Packet) (when : Nat) :
    Except Fatal (Bool × BridgeState × Packet) :=
  if s.retryReq then .error .retryAssert
  else if reqQueueFull s then
    .ok (false, { s with retryReq := true }, pkt)
  else
    let s1 :=
      if expectsResponse pkt then
        if respQueueFull s then { s with retryReq := true }
        else { s with outstandingResponses := s.outstandingResponses + 1 }
      else s
    if pkt.dsid.isSome then .error .alreadyTagged
    else
      let pkt1 := { pkt with dsid := some dsid }
      if s1.retryReq then .ok (false, s1, pkt1)
      else
        let pkt2 := { pkt1 with firstWordDelay := 0, lastWordDelay := 0 }
        match schedTimingReq s1 pkt2 when with
        | .error e => .error e
        | .ok s2 => .ok (true, s2, pkt2)

/-- `BridgeMasterPort::recvTimingResp` (lines 131-147): zero the
timing-hint fields and enqueue via `schedTimingResp`; always reports
acceptance (capacity was reserved at admission). -/
def recvTimingResp (s : BridgeState) (pkt : Packet) (when : Nat) :
    Except Fatal (BridgeState × Packet) :=
  schedTimingResp s (zeroDelays pkt) when

/-- `BridgeSlavePort::retryStalledReq` (lines 203-211): if a retry is
pending, clear it and notify the upstream agent.  Returns the new
state and whether the notification fired. -/
def retryStalledReq (s : BridgeState) : BridgeState × Bool :=
  if s.retryReq then ({ s with retryReq := false }, true) else (s, false)

/-- `BridgeMasterPort::trySendTiming` (lines 266-302) with the
downstream agent's `sendTimingReq` verdict passed in as `accept`.
On success: pop the head, then `slavePort.retryStalledReq()`.
Returns the state, the departed packet (if any) and whether a retry
notification fired. -/
def masterTrySendTiming (s : BridgeState) (accept : Bool) :
    Except Fatal (BridgeState × Option Packet × Bool) :=
  match s.reqQueue with
  | [] => .error .emptyQueue
  | dp :: rest =>
    if accept then
      let s1 := { s with reqQueue := rest }
      let (s2, notified) := retryStalledReq s1
      .ok (s2, some dp.pkt, notified)
    else .ok (s, none, false)

/-- `BridgeSlavePort::trySendTiming` (lines 304-346) with the upstream
agent's `sendTimingResp` verdict passed in as `accept`.  On success:
pop the head, decrement `outstandingResponses` (fatal if zero), and
fire the retry notification only if the request queue is not full and
a retry is pending. -/
def slaveTrySendTiming (s : BridgeState) (accept : Bool) :
    Except Fatal (BridgeState × Option Packet × Bool) :=
  match s.respQueue with
  | [] => .error .emptyQueue
  | dp :: rest =>
    if accept then
      if s.outstandingResponses == 0 then .error .respUnderflow
      else
        let s1 := { s with respQueue := rest,
                           outstandingResponses := s.outstandingResponses - 1 }
        if !reqQueueFull s1 && s1.retryReq then
          .ok ({ s1 with retryReq := false }, some dp.pkt, true)
        else .ok (s1, some dp.pkt, false)
    else .ok (s, none, false)

/-- `BridgeSlavePort::recvAtomic` (lines 360-367): tag (fatal if
already tagged), forward synchronously, return
`delay * clockPeriod + downstream latency`.  The downstream agent's
`sendAtomic` is abstracted as the oracle `downstream`. -/
def recvAtomic (dsid delay clockPeriod : Nat) (downstream : Packet → Nat)
    (pkt : Packet) : Except Fatal (Nat × Packet) :=
  if pkt.dsid.isSome then .error .alreadyTagged
  else
    let pkt1 := { pkt with dsid := some dsid }
    .ok (delay * clockPeriod + downstream pkt1, pkt1)

/-- Outcome of a functional probe. -/
inductive FuncResult where
  /-- satisfied from the slave port's response queue -/
  | satisfiedResp
  /-- satisfied from the master port's request queue -/
  | satisfiedReq
  /-- not satisfied locally; forwarded to the downstream agent -/
  | forwarded
deriving DecidableEq, Repr

/-- `BridgeMasterPort::checkFunctional` (lines 397-412): linear scan of
the request queue, stopping at the first overlap; `overlap p q` stands
for `p->checkFunctional(q)`. -/
def checkFunctional (overlap : Packet → Packet → Bool) (s : BridgeState)
    (pkt : Packet) : Bool :=
  s.reqQueue.any fun dp => overlap pkt dp.pkt

/-- `BridgeSlavePort::recvFunctional` (lines 369-395): tag the probe
(fatal if already tagged), scan the response queue, then the master
port's request queue; on a hit make the probe a response and stop;
otherwise forward it downstream. -/
def recvFunctional (dsid : Nat) (overlap : Packet → Packet → Bool)
    (s : BridgeState) (pkt : Packet) : Except Fatal (FuncResult × Packet) :=
  if pkt.dsid.isSome then .error .alreadyTagged
  else
    let pkt1 := { pkt with dsid := some dsid }
    if s.respQueue.any (fun dp => overlap pkt1 dp.pkt) then
      .ok (.satisfiedResp, makeResponse pkt1)
    else if checkFunctional overlap s pkt1 then
      .ok (.satisfiedReq, makeResponse pkt1)
    else
      .ok (.forwarded, pkt1)

/-! ## Driving the bridge: operation traces

An `Op` is one externally-driven handler invocation; `step` applies it
to the bridge state, and `run` folds a whole trace.  The adjacent
agents' timing verdicts (`sendTimingReq`/`sendTimingResp` return
values) appear as the `accept` booleans. -/

/-- One externally-driven handler invocation. -/
inductive Op where
  /-- the upstream agent submits a timing request (`recvTimingReq`) -/
  | req (pkt : Packet) (when : Nat)
  /-- the downstream agent delivers a timing response (`recvTimingResp`) -/
  | respArrive (pkt : Packet) (when : Nat)
  /-- a send attempt on the master port (`BridgeMasterPort::trySendTiming`),
      with the downstream agent's verdict -/
  | reqDepart (accept : Bool)
  /-- a send attempt on the slave port (`BridgeSlavePort::trySendTiming`),
      with the upstream agent's verdict -/
  | respDepart (accept : Bool)
deriving DecidableEq, Repr

/-- Apply one handler invocation to the bridge state. -/
def step (dsid : Nat) (s : BridgeState) (op : Op) : Except Fatal BridgeState :=
  match op with
  | .req pkt when =>
    match recvTimingReq dsid s pkt when with
    | .error e => .error e
    | .ok (_, s1, _) => .ok s1
  | .respArrive pkt when =>
    match recvTimingResp s pkt when with
    | .error e => .error e
    | .ok (s1, _) => .ok s1
  | .reqDepart accept =>
    match masterTrySendTiming s accept with
    | .error e => .error e
    | .ok (s1, _, _) => .ok s1
  | .respDepart accept =>
    match slaveTrySendTiming s accept with
    | .error e => .error e
    | .ok (s1, _, _) => .ok s1

/-- Fold a whole trace of handler invocations, stopping at the first
fatal condition. -/
def run (dsid : Nat) (s : BridgeState) : List Op → Except Fatal BridgeState
  | [] => .ok s
  | op :: ops =>
    match step dsid s op with
    | .error e => .error e
    | .ok s1 => run dsid s1 ops

/-- The state of a freshly constructed bridge: both queues empty, no
outstanding responses, no retry pending (constructor, lines 56-75). -/
def initState (reqLimit respLimit : Nat) : BridgeState :=
  { reqQueue := [], reqQueueLimit := reqLimit, respQueue := [],
    respQueueLimit := respLimit, outstandingResponses := 0, retryReq := false }

/-- The capacity invariant of §3 of the spec: the outstanding-response
reservation count never exceeds the response-queue capacity and the
request queue never exceeds the request-queue capacity. -/
def CapInv (s : BridgeState) : Prop :=
  s.outstandingResponses ≤ s.respQueueLimit ∧
  s.reqQueue.length ≤ s.reqQueueLimit

/-! ## Instrumented traces: admission and departure order

`TraceState` carries, next to the bridge state, the full sequence of
packets admitted into and departed from each queue, in order.  `stepT`
drives the same handlers as `step` and records, for each queue, the
suffix the handler appended (admissions) and the packet the handler
popped (departures). -/

/-- Bridge state plus the admission/departure history of both queues. -/
structure TraceState where
  st : BridgeState
  reqAdmitted : List Packet
  reqDeparted : List Packet
  respAdmitted : List Packet
  respDeparted : List Packet
deriving DecidableEq, Repr

/-- `step`, instrumented with admission/departure history. -/
def stepT (dsid : Nat) (t : TraceState) (op : Op) : Except Fatal TraceState :=
  match op with
  | .req pkt when =>
    match recvTimingReq dsid t.st pkt when with
    | .error e => .error e
    | .ok (_, s1, _) =>
      .ok { t with
              st := s1,
              reqAdmitted := t.reqAdmitted ++
                ((s1.reqQueue.drop t.st.reqQueue.length).map fun dp => dp.pkt) }
  | .respArrive pkt when =>
    match recvTimingResp t.st pkt when with
    | .error e => .error e
    | .ok (s1, _) =>
      .ok { t with
              st := s1,
              respAdmitted := t.respAdmitted ++
                ((s1.respQueue.drop t.st.respQueue.length).map fun dp => dp.pkt) }
  | .reqDepart accept =>
    match masterTrySendTiming t.st accept with
    | .error e => .error e
    | .ok (s1, sent, _) =>
      .ok { t with st := s1, reqDeparted := t.reqDeparted ++ sent.toList }
  | .respDepart accept =>
    match slaveTrySendTiming t.st accept with
    | .error e => .error e
    | .ok (s1, sent, _) =>
      .ok { t with st := s1, respDeparted := t.respDeparted ++ sent.toList }

/-- Fold a whole instrumented trace. -/
def runT (dsid : Nat) (t : TraceState) : List Op → Except Fatal TraceState
  | [] => .ok t
  | op :: ops =>
    match stepT dsid t op with
    | .error e => .error e
    | .ok t1 => runT dsid t1 ops

/-- A freshly constructed bridge with empty history. -/
def initTrace (reqLimit respLimit : Nat) : TraceState :=
  { st := initState reqLimit respLimit, reqAdmitted := [], reqDeparted := [],
    respAdmitted := [], respDeparted := [] }

/-- The FIFO invariant: for each queue, the departures so far, followed
by the packets still queued (front to back), are exactly the
admissions so far, in admission order.  In particular the departure
sequence is always a prefix of the admission sequence. -/
def FifoInv (t : TraceState) : Prop :=
  t.reqDeparted ++ (t.st.reqQueue.map fun dp => dp.pkt) = t.reqAdmitted ∧
  t.respDeparted ++ (t.st.respQueue.map fun dp => dp.pkt) = t.respAdmitted


/-! ## Concrete sample packets and states

Used by the concrete evaluations below (counterexamples and witnesses). -/

/-- An untagged request expecting a response (`src = 3`). -/
def samplePkt : Packet :=
  { addr := 4096, needsResponse := true, memInhibit := false, src := 3,
    dest := 9, dsid := none, senderState := [], firstWordDelay := 5,
    lastWordDelay := 6, isResponse := false }

/-- `samplePkt` as it sits in the request queue after admission with
`dsid = 5`: tagged, timing hints zeroed, sidecar `[3]` pushed. -/
def queuedPkt : Packet :=
  { samplePkt with
      dsid := some 5, senderState := [3],
      firstWordDelay := 0, lastWordDelay := 0 }

/-- `samplePkt` with the memory-inhibit flag asserted. -/
def inhibPkt : Packet :=
  { samplePkt with memInhibit := true }

/-- A returning response for `samplePkt`: source and destination have
been rewritten by intermediate hops, the sidecar stack `[3]` is intact. -/
def returningResp : Packet :=
  { samplePkt with
      dsid := some 5, senderState := [3], src := 77,
      dest := 88, isResponse := true }

/-- Request queue empty (capacity 2), the single response slot taken. -/
def c1State : BridgeState :=
  { reqQueue := [], reqQueueLimit := 2, respQueue := [], respQueueLimit := 1,
    outstandingResponses := 1, retryReq := false }

/-- One admitted request queued (capacity 2), the single response slot
taken. -/
def c2State : BridgeState :=
  { reqQueue := [⟨queuedPkt, 0⟩], reqQueueLimit := 2, respQueue := [],
    respQueueLimit := 1, outstandingResponses := 1, retryReq := false }

/-- A retry is pending, one response is queued and ready to depart. -/
def retryState : BridgeState :=
  { reqQueue := [], reqQueueLimit := 1, respQueue := [⟨queuedPkt, 3⟩],
    respQueueLimit := 1, outstandingResponses := 1, retryReq := true }

/-- The state produced by the notifying response departure from
`retryState`. -/
def notifyResult : BridgeState :=
  { reqQueue := [], reqQueueLimit := 1, respQueue := [], respQueueLimit := 1,
    outstandingResponses := 0, retryReq := false }

/-- The state after `initState 2 2` admits `samplePkt` (tag 5). -/
def c3AcceptState : BridgeState :=
  { reqQueue := [⟨queuedPkt, 0⟩], reqQueueLimit := 2, respQueue := [],
    respQueueLimit := 2, outstandingResponses := 1, retryReq := false }

/-- The state after `schedTimingReq` forwards `samplePkt` from
`initState 2 2` (no tagging, sidecar pushed). -/
def c5ReqState : BridgeState :=
  { reqQueue := [⟨{ samplePkt with senderState := [3] }, 0⟩],
    reqQueueLimit := 2, respQueue := [], respQueueLimit := 2,
    outstandingResponses := 0, retryReq := false }

/-- `returningResp` as delivered upstream: sidecar consumed,
destination restored to the original source `3`. -/
def deliveredResp : Packet :=
  { returningResp with senderState := [], dest := 3 }

/-- The state after `schedTimingResp` enqueues `returningResp` into
`initState 2 2` at tick 7. -/
def c5RespState : BridgeState :=
  { reqQueue := [], reqQueueLimit := 2, respQueue := [⟨deliveredResp, 7⟩],
    respQueueLimit := 2, outstandingResponses := 0, retryReq := false }

/-- The instrumented trace after `initTrace 2 2` admits `samplePkt`
(tag 5) and the request departs downstream. -/
def c7Trace : TraceState :=
  { st := { reqQueue := [], reqQueueLimit := 2, respQueue := [],
            respQueueLimit := 2, outstandingResponses := 1, retryReq := false },
    reqAdmitted := [queuedPkt], reqDeparted := [queuedPkt],
    respAdmitted := [], respDeparted := [] }

/-- A state holding one pending response at `samplePkt`'s address. -/
def c8State : BridgeState :=
  { reqQueue := [], reqQueueLimit := 2, respQueue := [⟨deliveredResp, 7⟩],
    respQueueLimit := 2, outstandingResponses := 1, retryReq := false }

/-- The state after `initState 1 1` admits the inhibited `inhibPkt`
(tag 5): forwarded tagged and zeroed, no sidecar, no reservation. -/
def c10AcceptState : BridgeState :=
  { reqQueue := [⟨{ inhibPkt with
      dsid := some 5, firstWordDelay := 0, lastWordDelay := 0 }, 0⟩],
    reqQueueLimit := 1, respQueue := [], respQueueLimit := 1,
    outstandingResponses := 0, retryReq := false }

/-! ## Per-handler characterisation lemmas -/

/-- What a successful `schedTimingReq` does to the state: requires the
request queue below its limit, appends exactly one item, touches
nothing else. -/
theorem schedTimingReq_spec (s : BridgeState) (pkt : Packet) (when : Nat)
    (s' : BridgeState) (h : schedTimingReq s pkt when = .ok s') :
    s.reqQueue.length ≠ s.reqQueueLimit ∧
    (∃ x, s'.reqQueue = s.reqQueue ++ [x]) ∧
    s'.respQueue = s.respQueue ∧
    s'.outstandingResponses = s.outstandingResponses ∧
    s'.retryReq = s.retryReq ∧
    s'.reqQueueLimit = s.reqQueueLimit ∧
    s'.respQueueLimit = s.respQueueLimit := by
  by_cases hfull : s.reqQueue.length = s.reqQueueLimit
  · simp [schedTimingReq, hfull] at h
  · by_cases hexp : (!pkt.memInhibit && pkt.needsResponse) = true <;>
    · simp only [schedTimingReq, hexp, if_true, if_false, Bool.false_eq_true,
        beq_iff_eq, hfull, if_neg, ite_false, ite_true, Except.ok.injEq] at h
      subst h
      simp_all

/-- What a successful `schedTimingResp` does to the state: appends
exactly one item to the response queue, touches nothing else. -/
theorem schedTimingResp_spec (s : BridgeState) (pkt : Packet) (when : Nat)
    (s' : BridgeState) (p' : Packet)
    (h : schedTimingResp s pkt when = .ok (s', p')) :
    (∃ x, s'.respQueue = s.respQueue ++ [x]) ∧
    s'.reqQueue = s.reqQueue ∧
    s'.outstandingResponses = s.outstandingResponses ∧
    s'.retryReq = s.retryReq ∧
    s'.reqQueueLimit = s.reqQueueLimit ∧
    s'.respQueueLimit = s.respQueueLimit := by
  unfold schedTimingResp at h
  split at h
  · simp at h
  · simp only [Except.ok.injEq, Prod.mk.injEq] at h
    obtain ⟨h1, -⟩ := h
    subst h1
    simp_all

/-- What a successful `recvTimingReq` does to the state, by admission
verdict: a refusal only raises the retry flag; an acceptance appends
one request and, exactly when the packet expects a response, reserves
one response slot — having first checked the slot count is below the
limit. -/
theorem recvTimingReq_spec (dsid : Nat) (s : BridgeState) (pkt : Packet)
    (when : Nat) (b : Bool) (s' : BridgeState) (p' : Packet)
    (h : recvTimingReq dsid s pkt when = .ok (b, s', p')) :
    s'.reqQueueLimit = s.reqQueueLimit ∧
    s'.respQueueLimit = s.respQueueLimit ∧
    s'.respQueue = s.respQueue ∧
    s.retryReq = false ∧
    (b = false → s'.reqQueue = s.reqQueue ∧
      s'.outstandingResponses = s.outstandingResponses ∧ s'.retryReq = true ∧
      (reqQueueFull s = true ∨
        (expectsResponse pkt = true ∧ respQueueFull s = true))) ∧
    (b = true → s'.retryReq = false ∧
      s.reqQueue.length ≠ s.reqQueueLimit ∧
      (∃ x, s'.reqQueue = s.reqQueue ++ [x]) ∧
      (expectsResponse pkt = true →
        s'.outstandingResponses = s.outstandingResponses + 1 ∧
        s.outstandingResponses ≠ s.respQueueLimit) ∧
      (expectsResponse pkt = false →
        s'.outstandingResponses = s.outstandingResponses)) := by
  by_cases hretry : s.retryReq = true
  · simp [recvTimingReq, hretry] at h
  · by_cases hfull : s.reqQueue.length = s.reqQueueLimit
    · simp only [recvTimingReq, reqQueueFull, hretry, beq_iff_eq, hfull,
        Bool.false_eq_true, if_false, if_true, ite_true, ite_false,
        Except.ok.injEq, Prod.mk.injEq] at h
      obtain ⟨hb, hs, -⟩ := h
      subst hb; subst hs
      simp_all [reqQueueFull]
    · by_cases hdsid : pkt.dsid.isSome = true
      · simp [recvTimingReq, reqQueueFull, hretry, hfull, hdsid,
          expectsResponse, respQueueFull] at h
      · by_cases hexp : expectsResponse pkt = true
        · by_cases hrf : respQueueFull s = true
          · -- refused for a full response queue
            simp only [recvTimingReq, reqQueueFull, respQueueFull, expectsResponse,
              beq_iff_eq, hretry, hfull, hdsid] at h
            simp only [expectsResponse, respQueueFull, beq_iff_eq] at hexp hrf
            simp only [hexp, hrf, Bool.false_eq_true, if_true, if_false,
              ite_true, ite_false, Except.ok.injEq, Prod.mk.injEq] at h
            obtain ⟨hb, hs, -⟩ := h
            subst hb; subst hs
            simp_all [expectsResponse, respQueueFull]
          · -- accepted, slot reserved
            simp only [expectsResponse] at hexp
            simp only [respQueueFull, beq_iff_eq] at hrf
            simp only [recvTimingReq, reqQueueFull, respQueueFull, expectsResponse,
              beq_iff_eq, hretry, hfull, hdsid, hexp, hrf, schedTimingReq,
              Bool.false_eq_true, if_true, if_false, ite_true, ite_false,
              Except.ok.injEq, Prod.mk.injEq] at h
            obtain ⟨hb, hs, -⟩ := h
            subst hb; subst hs
            refine ⟨by simp, by simp, by simp, by simpa using hretry, by simp, ?_⟩
            intro _
            refine ⟨by simpa using hretry, hfull, ⟨_, rfl⟩, ?_, ?_⟩
            · intro _
              exact ⟨by simp, hrf⟩
            · intro hc
              simp [expectsResponse, hexp] at hc
        · -- does not expect a response: accepted without reservation
          simp only [expectsResponse] at hexp
          simp only [recvTimingReq, reqQueueFull, respQueueFull, expectsResponse,
            beq_iff_eq, hretry, hfull, hdsid, hexp, schedTimingReq,
            Bool.false_eq_true, if_true, if_false, ite_true, ite_false,
            Except.ok.injEq, Prod.mk.injEq] at h
          obtain ⟨hb, hs, -⟩ := h
          subst hb; subst hs
          refine ⟨by simp, by simp, by simp, by simpa using hretry, by simp, ?_⟩
          intro _
          refine ⟨by simpa using hretry, hfull, ⟨_, rfl⟩, ?_, fun _ => by simp⟩
          intro hc
          simp only [expectsResponse] at hc
          exact absurd hc hexp

/-- What a successful master-port send attempt does: on acceptance the
head request departs and the retry flag is cleared (notifying iff it
was set); on rejection nothing changes. -/
theorem masterTrySendTiming_spec (s : BridgeState) (accept : Bool)
    (s' : BridgeState) (sent : Option Packet) (notified : Bool)
    (h : masterTrySendTiming s accept = .ok (s', sent, notified)) :
    s'.respQueue = s.respQueue ∧
    s'.outstandingResponses = s.outstandingResponses ∧
    s'.reqQueueLimit = s.reqQueueLimit ∧
    s'.respQueueLimit = s.respQueueLimit ∧
    s.reqQueue ≠ [] ∧
    (accept = false → s' = s ∧ sent = none ∧ notified = false) ∧
    (accept = true → (∃ dp, s.reqQueue = dp :: s'.reqQueue ∧ sent = some dp.pkt) ∧
      s'.retryReq = false ∧ notified = s.retryReq) := by
  unfold masterTrySendTiming retryStalledReq at h
  match hq : s.reqQueue with
  | [] => rw [hq] at h; simp at h
  | dp :: rest =>
    rw [hq] at h
    cases accept with
    | false =>
      simp only [Bool.false_eq_true, if_false, ite_false, Except.ok.injEq,
        Prod.mk.injEq] at h
      obtain ⟨h1, h2, h3⟩ := h
      subst h1; subst h2; subst h3
      simp [hq]
    | true =>
      by_cases hr : s.retryReq = true <;>
      · simp only [hr, if_true, if_false, ite_true, ite_false, Bool.false_eq_true,
          Except.ok.injEq, Prod.mk.injEq] at h
        obtain ⟨h1, h2, h3⟩ := h
        subst h1; subst h2; subst h3
        simp_all [hq]

/-- What a successful slave-port send attempt does: on acceptance the
head response departs and exactly one outstanding-response reservation
is released (the count was positive); the retry notification fires iff
a retry was pending and the request queue is not full, and firing
clears the flag. -/
theorem slaveTrySendTiming_spec (s : BridgeState) (accept : Bool)
    (s' : BridgeState) (sent : Option Packet) (notified : Bool)
    (h : slaveTrySendTiming s accept = .ok (s', sent, notified)) :
    s'.reqQueue = s.reqQueue ∧
    s'.reqQueueLimit = s.reqQueueLimit ∧
    s'.respQueueLimit = s.respQueueLimit ∧
    s.respQueue ≠ [] ∧
    (accept = false → s' = s ∧ sent = none ∧ notified = false) ∧
    (accept = true →
      (∃ dp, s.respQueue = dp :: s'.respQueue ∧ sent = some dp.pkt) ∧
      s.outstandingResponses ≠ 0 ∧
      s'.outstandingResponses = s.outstandingResponses - 1 ∧
      notified = (!reqQueueFull s && s.retryReq) ∧
      (notified = true → s'.retryReq = false) ∧
      (notified = false → s'.retryReq = s.retryReq)) := by
  unfold slaveTrySendTiming at h
  match hq : s.respQueue with
  | [] => rw [hq] at h; simp at h
  | dp :: rest =>
    rw [hq] at h
    cases accept with
    | false =>
      simp only [Bool.false_eq_true, if_false, ite_false, Except.ok.injEq,
        Prod.mk.injEq] at h
      obtain ⟨h1, h2, h3⟩ := h
      subst h1; subst h2; subst h3
      simp [hq]
    | true =>
      by_cases hzero : s.outstandingResponses = 0
      · simp [hzero] at h
      · have hz : (s.outstandingResponses == 0) = false := by simpa using hzero
        simp only [hz, Bool.false_eq_true, if_true, ite_true, if_false,
          ite_false] at h
        split at h
        · rename_i hcond
          simp only [Except.ok.injEq, Prod.mk.injEq] at h
          obtain ⟨hh1, hh2, hh3⟩ := h
          subst hh1; subst hh2; subst hh3
          have hcond' : (!reqQueueFull s && s.retryReq) = true := hcond
          exact ⟨rfl, rfl, rfl, by simp [hq], by simp,
            fun _ => ⟨⟨dp, by simp [hq]⟩, hzero, rfl, hcond'.symm,
              fun _ => rfl, by simp [hcond']⟩⟩
        · rename_i hcond
          simp only [Except.ok.injEq, Prod.mk.injEq] at h
          obtain ⟨hh1, hh2, hh3⟩ := h
          subst hh1; subst hh2; subst hh3
          have hcond' : (!reqQueueFull s && s.retryReq) = false :=
            Bool.eq_false_iff.mpr hcond
          exact ⟨rfl, rfl, rfl, by simp [hq], by simp,
            fun _ => ⟨⟨dp, by simp [hq]⟩, hzero, rfl, hcond'.symm,
              by simp [hcond'], fun _ => rfl⟩⟩

/-- One step preserves the capacity invariant. -/
theorem step_CapInv (dsid : Nat) (s s' : BridgeState) (op : Op)
    (hInv : CapInv s) (h : step dsid s op = .ok s') : CapInv s' := by
  obtain ⟨h1, h2⟩ := hInv
  cases op with
  | req pkt when =>
    simp only [step] at h
    match hr : recvTimingReq dsid s pkt when with
    | .error e => rw [hr] at h; simp at h
    | .ok (b, s1, p1) =>
      rw [hr] at h
      simp only [Except.ok.injEq] at h
      subst h
      obtain ⟨hl1, hl2, -, -, hfalse, htrue⟩ := recvTimingReq_spec _ _ _ _ _ _ _ hr
      cases b with
      | false =>
        obtain ⟨hq, ho, -⟩ := hfalse rfl
        refine ⟨by omega, ?_⟩
        rw [hq, hl1]
        exact h2
      | true =>
        obtain ⟨-, hlen, ⟨x, hx⟩, hexp, hnexp⟩ := htrue rfl
        constructor
        · by_cases he : expectsResponse pkt = true
          · obtain ⟨ho, hne⟩ := hexp he
            omega
          · have := hnexp (by simpa using he)
            omega
        · rw [hl1, hx]
          simp
          omega
  | respArrive pkt when =>
    simp only [step, recvTimingResp] at h
    match hr : schedTimingResp s (zeroDelays pkt) when with
    | .error e => rw [hr] at h; simp at h
    | .ok (s1, p1) =>
      rw [hr] at h
      simp only [Except.ok.injEq] at h
      subst h
      obtain ⟨-, hq, ho, -, hll, hlr⟩ := schedTimingResp_spec _ _ _ _ _ hr
      exact ⟨by omega, by rw [hq, hll]; omega⟩
  | reqDepart accept =>
    simp only [step] at h
    match hr : masterTrySendTiming s accept with
    | .error e => rw [hr] at h; simp at h
    | .ok (s1, sent, ntf) =>
      rw [hr] at h
      simp only [Except.ok.injEq] at h
      subst h
      obtain ⟨-, ho, hll, hlr, -, hrej, hacc⟩ := masterTrySendTiming_spec _ _ _ _ _ hr
      cases accept with
      | false => obtain ⟨he, -, -⟩ := hrej rfl; subst he; exact ⟨h1, h2⟩
      | true =>
        obtain ⟨⟨dp, hdp, -⟩, -, -⟩ := hacc rfl
        refine ⟨by omega, ?_⟩
        have : s.reqQueue.length = s1.reqQueue.length + 1 := by rw [hdp]; simp
        omega
  | respDepart accept =>
    simp only [step] at h
    match hr : slaveTrySendTiming s accept with
    | .error e => rw [hr] at h; simp at h
    | .ok (s1, sent, ntf) =>
      rw [hr] at h
      simp only [Except.ok.injEq] at h
      subst h
      obtain ⟨hq, hll, hlr, -, hrej, hacc⟩ := slaveTrySendTiming_spec _ _ _ _ _ hr
      cases accept with
      | false => obtain ⟨he, -, -⟩ := hrej rfl; subst he; exact ⟨h1, h2⟩
      | true =>
        obtain ⟨-, hnz, ho, -⟩ := hacc rfl
        exact ⟨by omega, by rw [hq, hll]; omega⟩

/-- A whole trace preserves the capacity invariant. -/
theorem run_CapInv (dsid : Nat) (s : BridgeState) (ops : List Op)
    (s' : BridgeState) (hInv : CapInv s) (h : run dsid s ops = .ok s') :
    CapInv s' := by
  induction ops generalizing s with
  | nil => simp only [run, Except.ok.injEq] at h; subst h; exact hInv
  | cons op ops ih =>
    unfold run at h
    match hs : step dsid s op with
    | .error e => rw [hs] at h; simp at h
    | .ok s1 =>
      rw [hs] at h
      exact ih s1 (step_CapInv dsid s s1 op hInv hs) h

/-- No step changes the configured capacities. -/
theorem step_limits (dsid : Nat) (s s' : BridgeState) (op : Op)
    (h : step dsid s op = .ok s') :
    s'.reqQueueLimit = s.reqQueueLimit ∧
    s'.respQueueLimit = s.respQueueLimit := by
  cases op with
  | req pkt when =>
    simp only [step] at h
    match hr : recvTimingReq dsid s pkt when with
    | .error e => rw [hr] at h; simp at h
    | .ok (b, s1, p1) =>
      rw [hr] at h
      simp only [Except.ok.injEq] at h
      subst h
      obtain ⟨hl1, hl2, -⟩ := recvTimingReq_spec _ _ _ _ _ _ _ hr
      exact ⟨hl1, hl2⟩
  | respArrive pkt when =>
    simp only [step, recvTimingResp] at h
    match hr : schedTimingResp s (zeroDelays pkt) when with
    | .error e => rw [hr] at h; simp at h
    | .ok (s1, p1) =>
      rw [hr] at h
      simp only [Except.ok.injEq] at h
      subst h
      obtain ⟨-, -, -, -, hll, hlr⟩ := schedTimingResp_spec _ _ _ _ _ hr
      exact ⟨hll, hlr⟩
  | reqDepart accept =>
    simp only [step] at h
    match hr : masterTrySendTiming s accept with
    | .error e => rw [hr] at h; simp at h
    | .ok (s1, sent, ntf) =>
      rw [hr] at h
      simp only [Except.ok.injEq] at h
      subst h
      obtain ⟨-, -, hll, hlr, -⟩ := masterTrySendTiming_spec _ _ _ _ _ hr
      exact ⟨hll, hlr⟩
  | respDepart accept =>
    simp only [step] at h
    match hr : slaveTrySendTiming s accept with
    | .error e => rw [hr] at h; simp at h
    | .ok (s1, sent, ntf) =>
      rw [hr] at h
      simp only [Except.ok.injEq] at h
      subst h
      obtain ⟨-, hll, hlr, -⟩ := slaveTrySendTiming_spec _ _ _ _ _ hr
      exact ⟨hll, hlr⟩

/-- No trace changes the configured capacities. -/
theorem run_limits (dsid : Nat) (s : BridgeState) (ops : List Op)
    (s' : BridgeState) (h : run dsid s ops = .ok s') :
    s'.reqQueueLimit = s.reqQueueLimit ∧
    s'.respQueueLimit = s.respQueueLimit := by
  induction ops generalizing s with
  | nil => simp only [run, Except.ok.injEq] at h; subst h; exact ⟨rfl, rfl⟩
  | cons op ops ih =>
    unfold run at h
    match hs : step dsid s op with
    | .error e => rw [hs] at h; simp at h
    | .ok s1 =>
      rw [hs] at h
      obtain ⟨ha1, ha2⟩ := step_limits dsid s s1 op hs
      obtain ⟨hb1, hb2⟩ := ih s1 h
      exact ⟨hb1.trans ha1, hb2.trans ha2⟩

/-- One instrumented step preserves the FIFO invariant. -/
theorem stepT_FifoInv (dsid : Nat) (t t' : TraceState) (op : Op)
    (hInv : FifoInv t) (h : stepT dsid t op = .ok t') : FifoInv t' := by
  obtain ⟨h1, h2⟩ := hInv
  cases op with
  | req pkt when =>
    simp only [stepT] at h
    match hr : recvTimingReq dsid t.st pkt when with
    | .error e => rw [hr] at h; simp at h
    | .ok (b, s1, p1) =>
      rw [hr] at h
      simp only [Except.ok.injEq] at h
      subst h
      obtain ⟨-, -, hresp, -, hfalse, htrue⟩ := recvTimingReq_spec _ _ _ _ _ _ _ hr
      cases b with
      | false =>
        obtain ⟨hq, -⟩ := hfalse rfl
        constructor
        · simpa [hq] using h1
        · simpa [hresp] using h2
      | true =>
        obtain ⟨-, -, ⟨x, hx⟩, -⟩ := htrue rfl
        constructor
        · simp only [hx, List.drop_left, List.map_append]
          rw [← h1]
          simp
        · simpa [hresp] using h2
  | respArrive pkt when =>
    simp only [stepT, recvTimingResp] at h
    match hr : schedTimingResp t.st (zeroDelays pkt) when with
    | .error e => rw [hr] at h; simp at h
    | .ok (s1, p1) =>
      rw [hr] at h
      simp only [Except.ok.injEq] at h
      subst h
      obtain ⟨⟨x, hx⟩, hq, -⟩ := schedTimingResp_spec _ _ _ _ _ hr
      constructor
      · simpa [hq] using h1
      · simp only [hx, List.drop_left, List.map_append]
        rw [← h2]
        simp
  | reqDepart accept =>
    simp only [stepT] at h
    match hr : masterTrySendTiming t.st accept with
    | .error e => rw [hr] at h; simp at h
    | .ok (s1, sent, ntf) =>
      rw [hr] at h
      simp only [Except.ok.injEq] at h
      subst h
      obtain ⟨hresp, -, -, -, -, hrej, hacc⟩ := masterTrySendTiming_spec _ _ _ _ _ hr
      cases accept with
      | false =>
        obtain ⟨he, hs, -⟩ := hrej rfl
        subst he; subst hs
        exact ⟨by simpa using h1, by simpa using h2⟩
      | true =>
        obtain ⟨⟨dp, hdp, hsent⟩, -⟩ := hacc rfl
        subst hsent
        constructor
        · rw [← h1, hdp]
          simp
        · simpa [hresp] using h2
  | respDepart accept =>
    simp only [stepT] at h
    match hr : slaveTrySendTiming t.st accept with
    | .error e => rw [hr] at h; simp at h
    | .ok (s1, sent, ntf) =>
      rw [hr] at h
      simp only [Except.ok.injEq] at h
      subst h
      obtain ⟨hreq, -, -, -, hrej, hacc⟩ := slaveTrySendTiming_spec _ _ _ _ _ hr
      cases accept with
      | false =>
        obtain ⟨he, hs, -⟩ := hrej rfl
        subst he; subst hs
        exact ⟨by simpa using h1, by simpa using h2⟩
      | true =>
        obtain ⟨⟨dp, hdp, hsent⟩, -⟩ := hacc rfl
        subst hsent
        constructor
        · simpa [hreq] using h1
        · rw [← h2, hdp]
          simp

/-- A whole instrumented trace preserves the FIFO invariant. -/
theorem runT_FifoInv (dsid : Nat) (t : TraceState) (ops : List Op)
    (t' : TraceState) (hInv : FifoInv t) (h : runT dsid t ops = .ok t') :
    FifoInv t' := by
  induction ops generalizing t with
  | nil => simp only [runT, Except.ok.injEq] at h; subst h; exact hInv
  | cons op ops ih =>
    unfold runT at h
    match hs : stepT dsid t op with
    | .error e => rw [hs] at h; simp at h
    | .ok t1 =>
      rw [hs] at h
      exact ih t1 (stepT_FifoInv dsid t t1 op hInv hs) h

/-! ## Closed forms of the scheduling handlers -/

/-- Closed form of `schedTimingReq` for a packet that expects a
response, with room in the queue: the enqueued packet carries the
`RequestState` sidecar recording its current source. -/
theorem schedTimingReq_expects (s : BridgeState) (pkt : Packet) (when : Nat)
    (hn : pkt.needsResponse = true) (hm : pkt.memInhibit = false)
    (hlen : s.reqQueue.length ≠ s.reqQueueLimit) :
    schedTimingReq s pkt when =
      .ok { s with reqQueue := s.reqQueue ++
        [⟨{ pkt with senderState := pkt.src :: pkt.senderState }, when⟩] } := by
  unfold schedTimingReq
  rw [hm, hn]
  simp [hlen]

/-- Closed form of `schedTimingReq` for a packet that does not expect a
response, with room in the queue: the packet is enqueued untouched, no
sidecar. -/
theorem schedTimingReq_no_resp (s : BridgeState) (pkt : Packet) (when : Nat)
    (hcond : (!pkt.memInhibit && pkt.needsResponse) = false)
    (hlen : s.reqQueue.length ≠ s.reqQueueLimit) :
    schedTimingReq s pkt when =
      .ok { s with reqQueue := s.reqQueue ++ [⟨pkt, when⟩] } := by
  unfold schedTimingReq
  rw [hcond]
  simp [hlen]

/-- A response arriving with an empty sender-state stack (no
`RequestState` sidecar) is the fatal `noSidecar` condition. -/
theorem schedTimingResp_nil (s : BridgeState) (pkt : Packet) (when : Nat)
    (hss : pkt.senderState = []) :
    schedTimingResp s pkt when = .error .noSidecar := by
  obtain ⟨a, nr, mi, src, dest, ds, ss, fw, lw, ir⟩ := pkt
  simp only at hss
  subst hss
  rfl

/-- Closed form of `schedTimingResp` when the sidecar is present: it is
popped (consumed exactly once) and the destination is restored to the
recorded original source. -/
theorem schedTimingResp_cons (s : BridgeState) (pkt : Packet) (when : Nat)
    (x : Nat) (rest : List Nat) (hss : pkt.senderState = x :: rest) :
    schedTimingResp s pkt when =
      .ok ({ s with respQueue := s.respQueue ++
          [⟨{ pkt with senderState := rest, dest := x }, when⟩] },
        { pkt with senderState := rest, dest := x }) := by
  obtain ⟨a, nr, mi, src, dest, ds, ss, fw, lw, ir⟩ := pkt
  simp only at hss
  subst hss
  rfl

/-- Reading off the `expects_response` test. -/
theorem expectsResponse_eq_true (pkt : Packet)
    (h : expectsResponse pkt = true) :
    pkt.needsResponse = true ∧ pkt.memInhibit = false := by
  rw [expectsResponse, Bool.and_eq_true, Bool.not_eq_true'] at h
  exact h

/-- The `expects_response` test matched against the (commuted) sidecar
condition of `schedTimingReq`. -/
theorem expectsResponse_eq_false (pkt : Packet)
    (h : expectsResponse pkt = false) :
    (!pkt.memInhibit && pkt.needsResponse) = false := by
  rw [Bool.and_comm]
  rw [expectsResponse] at h
  exact h

/-! ## The claims -/

/-- **C1** (code-bug evidence).  The claim requires every refusal to
leave the transaction untagged so that its resubmission after the
retry notification passes the tag-once check; this must hold for both
refusal causes.  The code violates it for the response-slot cause: the
DSid tagging (source lines 184-186) sits inside the queue-not-full
branch but outside the `!retryReq` guard, so a request refused for
response-slot unavailability is returned tagged.  Concretely, from
`c1State` (request queue 0/2, response slots 1/1) the request is
refused with `retryReq` raised and no slot reserved — but the packet
comes back tagged, and resubmitting that same packet once the retry
flag clears is the fatal `alreadyTagged` condition
(`assert(!pkt->hasDSid())`) instead of an ordinary re-admission. -/
theorem c1_slot_refusal_tags_packet :
    recvTimingReq 5 c1State samplePkt 0 =
      .ok (false, { c1State with retryReq := true },
        { samplePkt with dsid := some 5 }) ∧
    reqQueueFull c1State = false ∧
    respQueueFull c1State = true ∧
    recvTimingReq 5 c1State { samplePkt with dsid := some 5 } 1 =
      .error .alreadyTagged :=
  ⟨rfl, rfl, rfl, rfl⟩

/-- **C2** (counterexample).  The claim that the retry notification
never fires while the originally-blocking resource is still exhausted
is false.  From `c2State` (request queue 1/2, response slots 1/1) a
request expecting a response is refused — the request queue is not
full, so the cause is the exhausted response-slot count — raising the
retry flag.  When the queued request then departs downstream,
`BridgeMasterPort::trySendTiming` calls `retryStalledReq`, which
clears the flag and notifies unconditionally, although `respQueueFull`
still holds in the resulting state. -/
theorem c2_counterexample :
    recvTimingReq 5 c2State samplePkt 0 =
      .ok (false, { c2State with retryReq := true },
        { samplePkt with dsid := some 5 }) ∧
    reqQueueFull c2State = false ∧
    respQueueFull c2State = true ∧
    masterTrySendTiming { c2State with retryReq := true } true =
      .ok ({ c2State with reqQueue := [], retryReq := false },
        some queuedPkt, true) ∧
    respQueueFull { c2State with reqQueue := [], retryReq := false } = true :=
  ⟨rfl, rfl, rfl, rfl, rfl⟩

/-- **C2** (amended).  When the retry flag transitions from set to
cleared and the upstream agent is notified: if the trigger is a
response departing upstream (slave-port send), both resources are
available at that moment — the request queue has space and a response
slot is free; if the trigger is a request departing downstream
(master-port send), only the request queue is guaranteed to have
space — the response-slot count may still be at capacity, so the
resubmission may be refused again (as the source comment at lines
293-296 itself notes). -/
theorem c2_retry_resource_availability (s : BridgeState)
    (hcap : s.outstandingResponses ≤ s.respQueueLimit)
    (hlen : s.reqQueue.length ≤ s.reqQueueLimit) :
    (∀ s' sent ntf, slaveTrySendTiming s true = .ok (s', sent, ntf) →
       ntf = true →
       s'.retryReq = false ∧
       s'.reqQueue.length < s'.reqQueueLimit ∧
       s'.outstandingResponses < s'.respQueueLimit) ∧
    (∀ s' sent ntf, masterTrySendTiming s true = .ok (s', sent, ntf) →
       ntf = true →
       s'.retryReq = false ∧
       s'.reqQueue.length < s'.reqQueueLimit) := by
  constructor
  · intro s' sent ntf h hn
    subst hn
    obtain ⟨hq, hll, hlr, -, -, hacc⟩ := slaveTrySendTiming_spec _ _ _ _ _ h
    obtain ⟨-, hnz, ho, hntf, hclear, -⟩ := hacc rfl
    refine ⟨hclear rfl, ?_, ?_⟩
    · have hrf : reqQueueFull s = false := by
        cases hrfc : reqQueueFull s
        · rfl
        · rw [hrfc] at hntf; simp at hntf
      have hne : s.reqQueue.length ≠ s.reqQueueLimit := by
        simpa [reqQueueFull] using hrf
      rw [hq, hll]
      omega
    · rw [hlr]
      omega
  · intro s' sent ntf h hn
    subst hn
    obtain ⟨-, -, hll, -, -, -, hacc⟩ := masterTrySendTiming_spec _ _ _ _ _ h
    obtain ⟨⟨dp, hdp, -⟩, hclear, -⟩ := hacc rfl
    refine ⟨hclear, ?_⟩
    have hlen1 : s.reqQueue.length = s'.reqQueue.length + 1 := by
      rw [hdp]; simp
    rw [hll]
    omega

/-- Witness for `c2_retry_resource_availability` at `retryState`: the
response departure notifies, and afterwards every resource is indeed
available. -/
theorem c2_retry_resource_availability_witness :
    notifyResult.retryReq = false ∧
    notifyResult.reqQueue.length < notifyResult.reqQueueLimit ∧
    notifyResult.outstandingResponses < notifyResult.respQueueLimit :=
  (c2_retry_resource_availability retryState (by decide) (by decide)).1
    notifyResult (some queuedPkt) true rfl rfl

/-- **C3**.  Response-slot accounting is 1:1: an admitted request that
expects a response increments `outstandingResponses` by exactly one;
an admitted request that does not expect a response, and any refused
request, leaves it unchanged; a response that successfully departs
upstream (the popped packet is reported) decrements it by exactly one
(in particular it was nonzero — no underflow, no double-release); a
rejected response send, a request departure, and a response arrival
never change the count. -/
theorem c3_slot_accounting (dsid : Nat) :
    (∀ s pkt when b s' p', recvTimingReq dsid s pkt when = .ok (b, s', p') →
       (b = true → expectsResponse pkt = true →
          s'.outstandingResponses = s.outstandingResponses + 1) ∧
       (b = true → expectsResponse pkt = false →
          s'.outstandingResponses = s.outstandingResponses) ∧
       (b = false → s'.outstandingResponses = s.outstandingResponses)) ∧
    (∀ s accept s' sent ntf,
       slaveTrySendTiming s accept = .ok (s', sent, ntf) →
       (∀ p, sent = some p →
          s'.outstandingResponses + 1 = s.outstandingResponses) ∧
       (sent = none → s'.outstandingResponses = s.outstandingResponses)) ∧
    (∀ s accept s' sent ntf,
       masterTrySendTiming s accept = .ok (s', sent, ntf) →
       s'.outstandingResponses = s.outstandingResponses) ∧
    (∀ s pkt when s' p', recvTimingResp s pkt when = .ok (s', p') →
       s'.outstandingResponses = s.outstandingResponses) := by
  refine ⟨?_, ?_, ?_, ?_⟩
  · intro s pkt when b s' p' h
    obtain ⟨-, -, -, -, hfalse, htrue⟩ := recvTimingReq_spec _ _ _ _ _ _ _ h
    refine ⟨?_, ?_, ?_⟩
    · intro hb he
      obtain ⟨-, -, -, hexp, -⟩ := htrue hb
      exact (hexp he).1
    · intro hb he
      obtain ⟨-, -, -, -, hnexp⟩ := htrue hb
      exact hnexp he
    · intro hb
      exact (hfalse hb).2.1
  · intro s accept s' sent ntf h
    obtain ⟨-, -, -, -, hrej, hacc⟩ := slaveTrySendTiming_spec _ _ _ _ _ h
    cases accept with
    | false =>
      obtain ⟨he, hs, -⟩ := hrej rfl
      subst he
      refine ⟨fun p hp => ?_, fun _ => rfl⟩
      rw [hp] at hs
      exact absurd hs (by simp)
    | true =>
      obtain ⟨⟨dp, -, hsent⟩, hnz, ho, -⟩ := hacc rfl
      refine ⟨fun p hp => by omega, fun hn => ?_⟩
      rw [hsent] at hn
      simp at hn
  · intro s accept s' sent ntf h
    exact (masterTrySendTiming_spec _ _ _ _ _ h).2.1
  · intro s pkt when s' p' h
    exact (schedTimingResp_spec _ _ _ _ _ h).2.2.1

/-- Witness for `c3_slot_accounting`: admitting `samplePkt` into
`initState 2 2` raises the count from 0 to 1. -/
theorem c3_slot_accounting_witness :
    c3AcceptState.outstandingResponses =
      (initState 2 2).outstandingResponses + 1 :=
  (((c3_slot_accounting 5).1 (initState 2 2) samplePkt 0 true c3AcceptState
    { queuedPkt with senderState := [] } rfl).1 rfl (by decide))

/-- **C4**.  For every sequence of handler invocations from a fresh
bridge, as long as no fatal condition has occurred, the
outstanding-response reservation count is at most the configured
response-queue capacity and the request queue's length is at most the
configured request-queue capacity; since `run` quantifies over all
traces, the invariant holds at every observable instant. -/
theorem c4_capacity_invariant (dsid reqLimit respLimit : Nat)
    (ops : List Op) (s' : BridgeState)
    (h : run dsid (initState reqLimit respLimit) ops = .ok s') :
    s'.outstandingResponses ≤ respLimit ∧
    s'.reqQueue.length ≤ reqLimit := by
  obtain ⟨hc1, hc2⟩ :=
    run_CapInv dsid _ ops s' ⟨Nat.zero_le _, Nat.zero_le _⟩ h
  obtain ⟨hl1, hl2⟩ := run_limits dsid _ ops s' h
  simp only [initState] at hl1 hl2
  constructor
  · rw [hl2] at hc1; exact hc1
  · rw [hl1] at hc2; exact hc2

/-- Witness for `c4_capacity_invariant` after one admission. -/
theorem c4_capacity_invariant_witness :
    c3AcceptState.outstandingResponses ≤ 2 ∧
    c3AcceptState.reqQueue.length ≤ 2 :=
  c4_capacity_invariant 5 2 2 [Op.req samplePkt 0] c3AcceptState rfl

/-- **C5**.  Round-trip destination restoration: when a request that
expects a response is forwarded, the enqueued copy carries a
`RequestState` sidecar recording the source the request carried at
that moment (`pkt->getSrc()` in `schedTimingReq`, before any
downstream rewriting); and whenever a response carrying that sidecar
stack later traverses the bridge upstream — no matter how its own
source and destination fields were rewritten by intermediate hops —
`schedTimingResp` restores its destination to exactly that original
source. -/
theorem c5_round_trip (s : BridgeState) (pkt : Packet) (when : Nat)
    (s1 : BridgeState) (hexp : expectsResponse pkt = true)
    (hfwd : schedTimingReq s pkt when = .ok s1) :
    (s1.reqQueue.getLast?.map fun dp => dp.pkt.senderState) =
      some (pkt.src :: pkt.senderState) ∧
    ∀ s2 when2 resp s3 resp',
      resp.senderState = pkt.src :: pkt.senderState →
      schedTimingResp s2 resp when2 = .ok (s3, resp') →
      resp'.dest = pkt.src ∧ resp'.senderState = pkt.senderState := by
  obtain ⟨hn, hm⟩ := expectsResponse_eq_true pkt hexp
  constructor
  · obtain ⟨hlen, -⟩ := schedTimingReq_spec _ _ _ _ hfwd
    rw [schedTimingReq_expects s pkt when hn hm hlen] at hfwd
    simp only [Except.ok.injEq] at hfwd
    subst hfwd
    simp [List.getLast?_concat]
  · intro s2 when2 resp s3 resp' hss hresp
    rw [schedTimingResp_cons s2 resp when2 pkt.src pkt.senderState hss] at hresp
    simp only [Except.ok.injEq, Prod.mk.injEq] at hresp
    obtain ⟨-, hr⟩ := hresp
    subst hr
    exact ⟨rfl, rfl⟩

/-- Witness for `c5_round_trip`: `samplePkt` (src 3) forwarded from
`initState 2 2`; the returning response — source and destination
rewritten to 77/88 by intermediate hops — is delivered with its
destination restored to 3. -/
theorem c5_round_trip_witness :
    ((c5ReqState.reqQueue.getLast?.map fun dp => dp.pkt.senderState) =
      some (samplePkt.src :: samplePkt.senderState)) ∧
    deliveredResp.dest = samplePkt.src ∧
    deliveredResp.senderState = samplePkt.senderState := by
  have h := c5_round_trip (initState 2 2) samplePkt 0 c5ReqState
    (by decide) rfl
  exact ⟨h.1, h.2 (initState 2 2) 7 returningResp c5RespState deliveredResp
    rfl rfl⟩

/-- **C6**.  Sidecar lifecycle: at forwarding, `schedTimingReq`
appends exactly one queue entry, whose sender-state stack gained
exactly one sidecar entry iff the packet expects a response and is
untouched otherwise (created exactly once, only for
response-expecting forwards); at response time, `schedTimingResp`
pops exactly one sidecar entry, read into the destination (consumed
exactly once); a response arriving with no sidecar is the fatal
`noSidecar` error. -/
theorem c6_sidecar_lifecycle :
    (∀ s pkt when s1, schedTimingReq s pkt when = .ok s1 →
       ∃ dp, s1.reqQueue = s.reqQueue ++ [dp] ∧ dp.tick = when ∧
         (expectsResponse pkt = true →
            dp.pkt.senderState = pkt.src :: pkt.senderState) ∧
         (expectsResponse pkt = false →
            dp.pkt.senderState = pkt.senderState)) ∧
    (∀ s pkt when, pkt.senderState = [] →
       schedTimingResp s pkt when = .error .noSidecar) ∧
    (∀ s pkt when x rest s1 p1, pkt.senderState = x :: rest →
       schedTimingResp s pkt when = .ok (s1, p1) →
       p1.senderState = rest ∧ p1.dest = x) := by
  refine ⟨?_, schedTimingResp_nil, ?_⟩
  · intro s pkt when s1 h
    obtain ⟨hlen, -⟩ := schedTimingReq_spec _ _ _ _ h
    by_cases hexp : expectsResponse pkt = true
    · obtain ⟨hn, hm⟩ := expectsResponse_eq_true pkt hexp
      rw [schedTimingReq_expects s pkt when hn hm hlen] at h
      simp only [Except.ok.injEq] at h
      subst h
      exact ⟨_, rfl, rfl, fun _ => rfl, fun hc => by simp [hexp] at hc⟩
    · have hcond := expectsResponse_eq_false pkt (by simpa using hexp)
      rw [schedTimingReq_no_resp s pkt when hcond hlen] at h
      simp only [Except.ok.injEq] at h
      subst h
      exact ⟨_, rfl, rfl, fun hc => absurd hc hexp, fun _ => rfl⟩
  · intro s pkt when x rest s1 p1 hss h
    rw [schedTimingResp_cons s pkt when x rest hss] at h
    simp only [Except.ok.injEq, Prod.mk.injEq] at h
    obtain ⟨-, hr⟩ := h
    subst hr
    exact ⟨rfl, rfl⟩

/-- Witness for `c6_sidecar_lifecycle`: a response with an empty
sender-state stack is fatal; the delivered response for
`returningResp` has its sidecar consumed and its destination set from
it. -/
theorem c6_sidecar_lifecycle_witness :
    schedTimingResp (initState 2 2) samplePkt 3 = .error .noSidecar ∧
    deliveredResp.senderState = [] ∧ deliveredResp.dest = 3 := by
  refine ⟨c6_sidecar_lifecycle.2.1 (initState 2 2) samplePkt 3 rfl, ?_⟩
  exact c6_sidecar_lifecycle.2.2 (initState 2 2) returningResp 7 3 []
    c5RespState deliveredResp rfl rfl

/-- **C7**.  FIFO departure order: over every instrumented trace from
a fresh bridge, in each port's queue the sequence of departed packets
followed by the packets still queued (front to back) equals the
sequence of admitted packets in admission order — so departures are
always a prefix of admissions in order, and readiness (`tick` fields)
never reorders a queue: only the head can depart. -/
theorem c7_fifo_order (dsid reqLimit respLimit : Nat) (ops : List Op)
    (t : TraceState)
    (h : runT dsid (initTrace reqLimit respLimit) ops = .ok t) :
    t.reqDeparted ++ (t.st.reqQueue.map fun dp => dp.pkt) = t.reqAdmitted ∧
    t.respDeparted ++ (t.st.respQueue.map fun dp => dp.pkt) = t.respAdmitted :=
  runT_FifoInv dsid _ ops t ⟨rfl, rfl⟩ h

/-- Witness for `c7_fifo_order`: admit one request and let it depart. -/
theorem c7_fifo_order_witness :
    c7Trace.reqDeparted ++ (c7Trace.st.reqQueue.map fun dp => dp.pkt) =
      c7Trace.reqAdmitted ∧
    c7Trace.respDeparted ++ (c7Trace.st.respQueue.map fun dp => dp.pkt) =
      c7Trace.respAdmitted :=
  c7_fifo_order 5 2 2 [Op.req samplePkt 0, Op.reqDepart true] c7Trace rfl

/-- **C8**.  Functional probe: the probe is tagged first, then the
slave port's pending-response queue is searched, then the master
port's pending-request queue (`checkFunctional`), in that order; a hit
in the response queue wins even if the request queue also matches; on
any hit the probe becomes a response (`makeResponse`) and the result
is not `forwarded` — the downstream agent is never invoked; only when
neither queue matches is the probe forwarded downstream. -/
theorem c8_functional_probe (dsid : Nat) (overlap : Packet → Packet → Bool)
    (s : BridgeState) (pkt : Packet) (hfresh : pkt.dsid.isSome = false) :
    ((s.respQueue.any fun dp =>
        overlap { pkt with dsid := some dsid } dp.pkt) = true →
      recvFunctional dsid overlap s pkt =
        .ok (.satisfiedResp, makeResponse { pkt with dsid := some dsid })) ∧
    ((s.respQueue.any fun dp =>
        overlap { pkt with dsid := some dsid } dp.pkt) = false →
      checkFunctional overlap s { pkt with dsid := some dsid } = true →
      recvFunctional dsid overlap s pkt =
        .ok (.satisfiedReq, makeResponse { pkt with dsid := some dsid })) ∧
    ((s.respQueue.any fun dp =>
        overlap { pkt with dsid := some dsid } dp.pkt) = false →
      checkFunctional overlap s { pkt with dsid := some dsid } = false →
      recvFunctional dsid overlap s pkt =
        .ok (.forwarded, { pkt with dsid := some dsid })) := by
  refine ⟨?_, ?_, ?_⟩
  · intro h1
    simp [recvFunctional, hfresh, h1]
  · intro h1 h2
    simp [recvFunctional, hfresh, h1, h2]
  · intro h1 h2
    simp [recvFunctional, hfresh, h1, h2]

/-- Witness for `c8_functional_probe`: a probe at address 4096 hits
the pending response at the same address and is satisfied locally. -/
theorem c8_functional_probe_witness :
    recvFunctional 5 (fun a b => a.addr == b.addr) c8State samplePkt =
      .ok (.satisfiedResp, makeResponse { samplePkt with dsid := some 5 }) :=
  (c8_functional_probe 5 (fun a b => a.addr == b.addr) c8State samplePkt
    rfl).1 rfl

/-- **C9**.  Atomic mode: an untagged atomic request is tagged exactly
once (the forwarded packet carries `some dsid` where the input carried
`none`) and forwarded synchronously, and the reported latency is the
port's own delay in ticks (`delay * clockPeriod`) plus whatever
latency the downstream agent reports for the forwarded packet; a
pre-tagged packet is the fatal `alreadyTagged` condition. -/
theorem c9_atomic_latency (dsid delay clockPeriod : Nat)
    (downstream : Packet → Nat) (pkt : Packet) :
    (pkt.dsid = none →
      recvAtomic dsid delay clockPeriod downstream pkt =
        .ok (delay * clockPeriod + downstream { pkt with dsid := some dsid },
          { pkt with dsid := some dsid })) ∧
    (pkt.dsid.isSome = true →
      recvAtomic dsid delay clockPeriod downstream pkt =
        .error .alreadyTagged) := by
  constructor
  · intro h
    simp [recvAtomic, h]
  · intro h
    simp [recvAtomic, h]

/-- Witness for `c9_atomic_latency` with delay 3 cycles of period 10
and a downstream agent reporting 12. -/
theorem c9_atomic_latency_witness :
    recvAtomic 5 3 10 (fun _ => 12) samplePkt =
      .ok (3 * 10 + 12, { samplePkt with dsid := some 5 }) ∧
    recvAtomic 5 3 10 (fun _ => 12) queuedPkt = .error .alreadyTagged :=
  ⟨(c9_atomic_latency 5 3 10 (fun _ => 12) samplePkt).1 rfl,
   (c9_atomic_latency 5 3 10 (fun _ => 12) queuedPkt).2 rfl⟩

/-- **C10**.  A timing request with the memory-inhibit flag asserted
is treated as not expecting a response even when `needsResponse` is
set: admission never changes the outstanding-response count, a refusal
can only be caused by a full request queue, and the forwarded queue
entry is the packet itself — no `RequestState` sidecar is pushed. -/
theorem c10_inhibited_requests (dsid : Nat) (s : BridgeState) (pkt : Packet)
    (when : Nat) (hinh : pkt.memInhibit = true) :
    (∀ b s' p', recvTimingReq dsid s pkt when = .ok (b, s', p') →
       s'.outstandingResponses = s.outstandingResponses ∧
       (b = false → reqQueueFull s = true)) ∧
    (∀ s', schedTimingReq s pkt when = .ok s' →
       s'.reqQueue = s.reqQueue ++ [⟨pkt, when⟩]) := by
  have hexp : expectsResponse pkt = false := by
    rw [expectsResponse, hinh]
    simp
  constructor
  · intro b s' p' h
    obtain ⟨-, -, -, -, hfalse, htrue⟩ := recvTimingReq_spec _ _ _ _ _ _ _ h
    cases b with
    | false =>
      obtain ⟨-, ho, -, hcause⟩ := hfalse rfl
      refine ⟨ho, fun _ => ?_⟩
      rcases hcause with hc | ⟨he, -⟩
      · exact hc
      · rw [hexp] at he
        exact absurd he (by simp)
    | true =>
      obtain ⟨-, -, -, -, hnexp⟩ := htrue rfl
      exact ⟨hnexp hexp, by simp⟩
  · intro s' h
    obtain ⟨hlen, -⟩ := schedTimingReq_spec _ _ _ _ h
    rw [schedTimingReq_no_resp s pkt when (by rw [hinh]; simp) hlen] at h
    simp only [Except.ok.injEq] at h
    subst h
    rfl

/-- Witness for `c10_inhibited_requests`: admitting the inhibited
`inhibPkt` into `initState 1 1` leaves the count at 0. -/
theorem c10_inhibited_requests_witness :
    c10AcceptState.outstandingResponses =
      (initState 1 1).outstandingResponses :=
  ((c10_inhibited_requests 5 (initState 1 1) inhibPkt 0 rfl).1 true
    c10AcceptState
    { inhibPkt with dsid := some 5, firstWordDelay := 0, lastWordDelay := 0 }
    rfl).1

end TagBridge
